import Mathlib

/-!
# SecureCacheNest — shallow embedding and verification

This file embeds `src/secure-cache-nest.js` (the `SimpleStorage` module) in
Lean 4 and settles the frozen claims about it.

Modelling choices, stated once:

* JavaScript structural (JSON-representable) values are the inductive
  `JValue`.  JavaScript numbers are modelled as `Int` (every claim only
  involves integral values).
* JavaScript strings flowing through the codec pipeline are modelled
  symbolically by `JStr`: a string is either the JSON text of a value
  (`jsonOf v`, i.e. `JSON.stringify(v)`), an AES ciphertext
  (`cipher t secret`, i.e. `CryptoJS.AES.encrypt(t, secret).toString()`),
  an LZ-compressed text (`lz t`, i.e. `LZString.compressToUTF16(t)`), or a
  plain literal (`raw s`) used for text outside the image of the codec
  (ordinary key names, garbage produced by wrong-secret decryption, …).
  This treats the host primitives `JSON`, `CryptoJS.AES` and `LZString`
  as black boxes satisfying exactly their interface contracts
  (injective encodings, invertible with the matching key), which is how
  the specification scopes them.
* `localStorage` is an association list `LStorage` from keys to stored
  strings.  The in-memory cache is an association list from keys to
  structural values, as in the source (`memoryCache[key] = value`).
* JavaScript runtime values that may also be `undefined` are `JSVal :=
  Option JValue` (`none` = `undefined`); JS `null` is `some JValue.null`.
* Exceptions (`TypeError` from calling a non-function or reading a
  property of `undefined`, `SyntaxError` from `JSON.parse`) are modelled
  with `Except JsErr`.  The source contains no `try`/`catch`, so every
  exception propagates to the caller.
* `logAction` only appends to the internal `logs` array and writes to the
  console; no claim observes it, so it is omitted.  Events fired through
  `triggerEvent` are observable and are returned as an event trace by
  each mutating operation.
-/

/-- JavaScript exceptions thrown by the code paths under study. -/
inductive JsErr where
  | typeError : JsErr
  | syntaxError : JsErr
  deriving DecidableEq, Repr

mutual
/-- Symbolic JavaScript strings: the image of the codec primitives plus
plain literals.  `jsonOf v` is `JSON.stringify(v)`; `cipher t k` is the
AES ciphertext of text `t` under secret `k`; `lz t` is
`LZString.compressToUTF16(t)`; `raw s` is literal text that is not valid
JSON (ciphertext fragments, wrong-key garbage, ordinary identifiers). -/
inductive JStr where
  | jsonOf : JValue → JStr
  | cipher : JStr → String → JStr
  | lz : JStr → JStr
  | raw : String → JStr

/-- JSON-representable structural values. -/
inductive JValue where
  | null : JValue
  | bool : Bool → JValue
  | num : Int → JValue
  | str : JStr → JValue
  | arr : List JValue → JValue
  | obj : List (String × JValue) → JValue
end

/-- A JavaScript runtime value that may be `undefined` (`none`). -/
abbrev JSVal := Option JValue

/-- JavaScript truthiness of a string.  Only the empty literal is falsy:
`JSON.stringify` of a structural value, an AES ciphertext and an LZ
compression result are always non-empty. -/
def JStr.falsy : JStr → Bool
  | .raw s => s == ""
  | _ => false

/-- JavaScript truthiness of a defined value. -/
def jsTruthy : JValue → Bool
  | .null => false
  | .bool b => b
  | .num n => n != 0
  | .str s => !s.falsy
  | .arr _ => true
  | .obj _ => true

/-- JavaScript truthiness of a possibly-`undefined` value. -/
def jsvTruthy : JSVal → Bool
  | none => false
  | some v => jsTruthy v

/-- Property access `v[k]` for the properties used by the code
(`item.value`, `item.expiry`): defined fields of objects, `undefined`
everywhere else. -/
def getField : JValue → String → JSVal
  | .obj fs, k => fs.lookup k
  | _, _ => none

/-- `now > e` as evaluated by JS for the expiry check: a genuine numeric
comparison when the field is a number, `false` otherwise (comparison with
a non-numeric operand yields `NaN` semantics on the paths modelled). -/
def jsGtNum (now : Int) : JSVal → Bool
  | some (.num e) => now > e
  | _ => false

/-- `JSON.parse` applied to a symbolic string.  Parsing the JSON text of
`v` recovers `v`; ciphertext, compressed text and plain literals are not
valid JSON and throw `SyntaxError`. -/
def parseStr : JStr → Except JsErr JValue
  | .jsonOf v => .ok v
  | _ => .error .syntaxError

/-- `JSON.parse(data)` where `data` is an arbitrary runtime value: JS
first coerces the argument to a string.  Strings parse as above; numbers
and `true` re-parse to themselves; `null`/`undefined`/`false` coerce to
the literals `"null"`/`"undefined"`/`"false"` of which only `"null"` and
`"false"` are valid JSON; arrays and objects coerce to text that is not
valid JSON on the paths modelled. -/
def jsonParse : JSVal → Except JsErr JValue
  | some (.str s) => parseStr s
  | some (.num n) => .ok (.num n)
  | some (.bool b) => .ok (.bool b)
  | some .null => .ok .null
  | none => .error .syntaxError
  | some (.arr _) => .error .syntaxError
  | some (.obj _) => .error .syntaxError

/-- `function serialize(data) { return JSON.stringify(data); }` -/
def serialize (data : JValue) : JStr := .jsonOf data

/-- `function deserialize(data) { return data ? JSON.parse(data) : null; }` -/
def deserialize (data : JSVal) : Except JsErr JValue :=
  if jsvTruthy data then jsonParse data else .ok .null

/-- `LZString.compressToUTF16` on a string. -/
def compressToUTF16 (s : JStr) : JStr := .lz s

/-- `LZString.decompressFromUTF16`: inverts `compressToUTF16`; on input
that is not a compression result it yields `null` (undefined behaviour of
the primitive, modelled as its documented failure value). -/
def decompressFromUTF16 : JStr → JSVal
  | .lz t => some (.str t)
  | _ => some .null

/-- `function compressData(data) { return LZString.compressToUTF16(serialize(data)); }`
— note the second serialization: the (string) payload is JSON-stringified
again before compression. -/
def compressData (data : JStr) : JStr :=
  compressToUTF16 (serialize (.str data))

/-- `function decompressData(data) { return deserialize(LZString.decompressFromUTF16(data)); }`
applied to an arbitrary runtime value (the primitive stringifies
non-string input; on the paths modelled that input is a string or the
result is `null`). -/
def decompressData : JSVal → Except JsErr JValue
  | some (.str s) => deserialize (decompressFromUTF16 s)
  | _ => deserialize (some .null)

/-- `function encrypt(data, secret)` — AES encryption of text. -/
def encrypt (data : JStr) (secret : String) : JStr := .cipher data secret

/-- `function decrypt(data, secret)`: with the matching secret the
plaintext is recovered; with a wrong secret the primitive yields
unintelligible text that is not valid JSON (the specification's contract:
it does not throw); on input that is not a ciphertext it likewise yields
garbage. -/
def decrypt : JSVal → String → JStr
  | some (.str (.cipher t k)), secret => if k == secret then t else .raw "\xBF garbage"
  | _, _ => .raw ""

/-- The persistent string store (`localStorage`): key ↦ stored string. -/
abbrev LStorage := List (String × JStr)

def lsGet (st : LStorage) (key : String) : Option JStr := st.lookup key

/-- `localStorage.removeItem(key)` on the underlying map: every binding
for `key` disappears (the association list always holds at most one, but
filtering keeps the model a map without an explicit invariant). -/
def lsRemove (st : LStorage) (key : String) : LStorage :=
  st.filter (fun p => !(p.1 == key))

/-- `localStorage.setItem(key, v)`: overwrite the binding for `key`. -/
def lsSet (st : LStorage) (key : String) (v : JStr) : LStorage :=
  (key, v) :: lsRemove st key

/-- An event fired through `triggerEvent`: name and payload. -/
structure Event where
  name : String
  payload : JValue

/-- Options object accepted by `setItem`.  `secret` is `none` when the
property is absent. -/
structure SetOptions where
  expiry : Option Int := none
  compress : Bool := false
  encrypt : Bool := false
  secret : Option String := none

/-- Options object accepted by `getItem`. -/
structure GetOptions where
  decompress : Bool := false
  encrypt : Bool := false
  secret : Option String := none

/-- Truthiness of the destructured `secret` option: present and not the
empty string. -/
def secretTruthy : Option String → Bool
  | some s => s != ""
  | none => false

/-- `localStorage.getItem(key)` as a JS runtime value: the stored string,
or JS `null` when the key is absent. -/
def lsGetJS (st : LStorage) (key : String) : JSVal :=
  match lsGet st key with
  | some s => some (.str s)
  | none => some .null

/-- Result of `getItem`: the returned value, the (possibly pruned)
store, and the events fired. -/
structure GetResult where
  value : JValue
  store : LStorage
  events : List Event

/-- `function setItem(key, value, options = {})` (lines 61–79).

The destructuring `const { expiry, compress, encrypt, secret } = options`
shadows the module-level `encrypt` function with the boolean option, so
when `encrypt && secret` holds the call `encrypt(storedValue, secret)`
invokes a boolean and throws `TypeError`.  Otherwise the serialized value
is optionally compressed and wrapped in the `{value, expiry}` envelope;
`expiry ? now + expiry : null` treats `expiry = 0` as absent (falsy). -/
def setItem (key : String) (value : JValue) (options : SetOptions) (now : Int)
    (st : LStorage) : Except JsErr (LStorage × List Event) :=
  let storedValue := serialize value
  if options.encrypt && secretTruthy options.secret then
    .error .typeError
  else
    let storedValue := if options.compress then compressData storedValue else storedValue
    let expiryV : JValue :=
      match options.expiry with
      | some e => if e != 0 then .num (now + e) else .null
      | none => .null
    let item : JValue := .obj [("value", .str storedValue), ("expiry", expiryV)]
    .ok (lsSet st key (serialize item),
         [⟨"set", .obj [("key", .str (.raw key)), ("value", value)]⟩])

/-- `function getItem(key, options = {})` (lines 81–101).

`deserialize(localStorage.getItem(key))` throws `SyntaxError` when the
stored text is not valid JSON; a falsy parse returns `null`; an expired
envelope is removed lazily (with `logAction` only — no `triggerEvent`);
otherwise the payload is optionally decompressed, optionally decrypted
(the module-level `decrypt` is not shadowed here), and deserialized. -/
def getItem (key : String) (options : GetOptions) (now : Int) (st : LStorage) :
    Except JsErr GetResult :=
  match deserialize (lsGetJS st key) with
  | .error e => .error e
  | .ok item =>
    if !jsTruthy item then .ok ⟨.null, st, []⟩
    else if jsvTruthy (getField item "expiry") && jsGtNum now (getField item "expiry") then
      .ok ⟨.null, lsRemove st key, []⟩
    else
      let value : JSVal := getField item "value"
      let afterDecompress : Except JsErr JSVal :=
        if options.decompress then (decompressData value).map some else .ok value
      match afterDecompress with
      | .error e => .error e
      | .ok value =>
        let value : JSVal :=
          if options.encrypt && secretTruthy options.secret then
            some (.str (decrypt value (options.secret.getD "")))
          else value
        (deserialize value).map (fun v => ⟨v, st, []⟩)

/-- `function removeItem(key)` (lines 103–107): removes the key and fires
the `remove` event. -/
def removeItem (key : String) (st : LStorage) : LStorage × List Event :=
  (lsRemove st key, [⟨"remove", .obj [("key", .str (.raw key))]⟩])

/-- `function clearStorage()` (lines 109–113). -/
def clearStorage (_st : LStorage) : LStorage × List Event :=
  ([], [⟨"clear", .obj []⟩])

/-- A subscriber callback, abstracted to its observable behaviour: `ok i`
runs normally (identified by `i`), `throws i` raises an exception when
invoked. -/
inductive Callback where
  | ok : Nat → Callback
  | throws : Nat → Callback

/-- The `eventListeners` record: one list per valid event name. -/
structure Listeners where
  set : List Callback := []
  remove : List Callback := []
  clear : List Callback := []

/-- `eventListeners[event]`: own-property access.  (Properties inherited
from `Object.prototype` are all non-arrays, so every code path using the
result — `.push` in `on`, `.forEach` in `triggerEvent` — fails for them
exactly as for an absent property or throws identically; they are
modelled as absent.) -/
def lookupListeners (ls : Listeners) : String → Option (List Callback)
  | "set" => some ls.set
  | "remove" => some ls.remove
  | "clear" => some ls.clear
  | _ => none

/-- `eventListeners[event].forEach(callback => callback(data))`: invokes
the callbacks left to right; an exception thrown by one propagates out of
`forEach` immediately (there is no `try`/`catch` in the source).  Returns
the identifiers of the callbacks actually invoked and whether an
exception escaped. -/
def runCallbacks : List Callback → List Nat × Bool
  | [] => ([], false)
  | .ok i :: rest =>
    let r := runCallbacks rest
    (i :: r.1, r.2)
  | .throws i :: _ => ([i], true)

/-- `function triggerEvent(event, data)` (lines 51–55): guarded by
`if (eventListeners[event])`. -/
def triggerEvent (event : String) (ls : Listeners) : List Nat × Bool :=
  match lookupListeners ls event with
  | some cbs => runCallbacks cbs
  | none => ([], false)

/-- `function on(event, callback) { eventListeners[event].push(callback); }`
(lines 57–59); `on` is a reserved token in Lean, hence the name `onEvent`.
For an event name with no (own) listener list the access yields a value
without a `push` method and the call throws `TypeError`. -/
def onEvent (event : String) (callback : Callback) (ls : Listeners) : Except JsErr Listeners :=
  match event with
  | "set" => .ok { ls with set := ls.set ++ [callback] }
  | "remove" => .ok { ls with remove := ls.remove ++ [callback] }
  | "clear" => .ok { ls with clear := ls.clear ++ [callback] }
  | _ => .error .typeError

/-- The in-memory cache (`memoryCache`): key ↦ structural value. -/
abbrev MemCache := List (String × JValue)

/-- `function setItemWithCache(key, value)` (lines 189–194): stores the
structural value in the cache and its plain serialization (no envelope)
in the persistent store. -/
def setItemWithCache (key : String) (value : JValue) (cache : MemCache) (st : LStorage) :
    MemCache × LStorage × List Event :=
  ((key, value) :: cache.filter (fun p => !(p.1 == key)),
   lsSet st key (serialize value),
   [⟨"set", .obj [("key", .str (.raw key)), ("value", value)]⟩])

/-- `function getItemWithCache(key)` (lines 196–200):
`memoryCache[key] || getItem(key)` — a falsy or absent cache entry falls
through to a plain `getItem` read. -/
def getItemWithCache (key : String) (cache : MemCache) (now : Int) (st : LStorage) :
    Except JsErr GetResult :=
  match cache.lookup key with
  | some v => if jsTruthy v then .ok ⟨v, st, []⟩ else getItem key {} now st
  | none => getItem key {} now st

/-- `function setItemWithLimit(key, value, limit)` (lines 217–225).

`JSON.parse(localStorage.getItem(key))` throws on stored text that is not
valid JSON (`JSON.parse(null)` parses the coerced text `"null"` to
`null`); `|| []` replaces a falsy parse with the empty array; `.length >=
limit` shifts exactly one element; `.push` on a truthy non-array value
throws `TypeError`. -/
def setItemWithLimit (key : String) (value : JValue) (limit : Int) (st : LStorage) :
    Except JsErr LStorage :=
  match jsonParse (lsGetJS st key) with
  | .error e => .error e
  | .ok parsed =>
    let storedItems := if jsTruthy parsed then parsed else .arr []
    match storedItems with
    | .arr xs =>
      let xs := if (xs.length : Int) ≥ limit then xs.drop 1 else xs
      .ok (lsSet st key (serialize (.arr (xs ++ [value]))))
    | _ => .error .typeError

/-- `function setItemEncrypted(key, value, secret)` (lines 172–177):
stores the raw ciphertext directly, without the envelope. -/
def setItemEncrypted (key : String) (value : JValue) (secret : String) (st : LStorage) :
    LStorage × List Event :=
  (lsSet st key (encrypt (serialize value) secret),
   [⟨"set", .obj [("key", .str (.raw key)), ("value", value)]⟩])

/-- A message posted on the `storage-sync` broadcast channel. -/
structure SyncMsg where
  key : String
  value : JValue

/-- `function setItemWithSync(key, value)` (lines 297–300, the primary
implementation): `setItem(key, value)` — the full pipeline write with
the `{value, expiry}` envelope and no options — followed by
`channel.postMessage({ key, value })`. -/
def setItemWithSync (key : String) (value : JValue) (now : Int) (st : LStorage) :
    Except JsErr (LStorage × List Event × SyncMsg) :=
  (setItem key value {} now st).map (fun r => (r.1, r.2, ⟨key, value⟩))

/-- The identifier carried by a callback. -/
def Callback.id : Callback → Nat
  | .ok i => i
  | .throws i => i

/-- Reading back the binding just written. -/
theorem lsGet_lsSet_self (st : LStorage) (k : String) (v : JStr) :
    lsGet (lsSet st k v) k = some v := by
  simp [lsGet, lsSet, List.lookup]

/-- A removed key is absent. -/
theorem lsGet_lsRemove_self (st : LStorage) (k : String) :
    lsGet (lsRemove st k) k = none := by
  induction st with
  | nil => rfl
  | cons p t ih =>
    obtain ⟨a, b⟩ := p
    by_cases hp : a = k
    · subst hp
      simpa [lsRemove, List.filter_cons] using ih
    · have hk : (k == a) = false := by simp [Ne.symm hp]
      simp only [lsRemove, List.filter_cons] at ih ⊢
      simp [hp, List.lookup, hk, ih, lsGet]
      exact fun a' b' _ h h2 => h h2.symm

/-- Sample structural value used by concrete instances below (the
README's `{ name: 'Alice', age: 28 }`). -/
def aliceValue : JValue := .obj [("name", .str (.raw "Alice")), ("age", .num 28)]

/-- C1: the claimed round-trip fails for the `{encrypt, secret}` option
combination — inside `setItem` the destructured `encrypt` option shadows
the module-level `encrypt` function, so every write that requests
encryption calls a boolean as a function and throws `TypeError` before
anything is stored.  The README documents exactly this combination
working (`storage.setItem('user', userData, {… encrypt: true, secret:
'mySecret'})` followed by a successful read), so the code contradicts its
own documentation.  For contrast, the second conjunct shows the
`{compress}` combination of the same claim round-tripping on the
README's value. -/
theorem C1_roundTrip_encrypt_shadowing :
    (∀ (key : String) (v : JValue) (s : String) (now : Int) (st : LStorage),
        s ≠ "" →
        setItem key v { encrypt := true, secret := some s } now st = .error .typeError)
    ∧ ((setItem "user" aliceValue { compress := true } 0 []).map
        (fun r => (getItem "user" { decompress := true } 0 r.1).map GetResult.value) =
        .ok (.ok aliceValue)) := by
  refine ⟨?_, rfl⟩
  intro key v s now st hs
  simp [setItem, secretTruthy, hs]

/-- C1 witness: the README's own input (`'user'`,
`{name: 'Alice', age: 28}`, `{encrypt: true, secret: 'mySecret'}`)
throws. -/
theorem C1_roundTrip_encrypt_shadowing_witness :
    setItem "user" aliceValue { encrypt := true, secret := some "mySecret" } 0 [] =
      .error .typeError :=
  C1_roundTrip_encrypt_shadowing.1 "user" aliceValue "mySecret" 0 [] (by decide)

/-- C5 counterexample: the claim says `on` with an invalid event name is
a silent no-op that does not throw; in fact `eventListeners[event]` has
no `push` method for such a name and the call throws `TypeError` — the
result is an exception, not the unchanged listener table. -/
theorem C5_counterexample_on_invalid_throws :
    onEvent "typo" (.ok 0) {} = .error .typeError ∧
    (Except.error .typeError : Except JsErr Listeners) ≠ .ok {} := by
  refine ⟨rfl, ?_⟩
  intro h
  cases h

/-- C5 amended: for every event name outside `set`/`remove`/`clear`,
`on(eventName, callback)` throws `TypeError` (leaving the subscriber
lists unchanged, as no new state is produced); it is not a silent
no-op. -/
theorem C5_amended_on_invalid_throws :
    ∀ (ev : String) (cb : Callback) (ls : Listeners),
      ev ≠ "set" → ev ≠ "remove" → ev ≠ "clear" →
      onEvent ev cb ls = .error .typeError := by
  intro ev cb ls h1 h2 h3
  unfold onEvent
  split <;> simp_all

/-- C5 witness: a concrete invalid registration throws. -/
theorem C5_amended_on_invalid_throws_witness :
    onEvent "nope" (.throws 7) {} = .error .typeError :=
  C5_amended_on_invalid_throws "nope" (.throws 7) {} (by decide) (by decide) (by decide)

/-- C8 counterexample: the claim says `setItemWithSync` performs a plain
persistent write of the value directly under the key, bypassing the
envelope; the primary implementation (lines 297–300) instead routes
through `setItem`, so what is persisted is the serialized
`{value, expiry: null}` envelope — a different string than the plain
serialization of the value. -/
theorem C8_counterexample_sync_wrapped_in_envelope :
    (setItemWithSync "k" (.num 5) 0 []).map (fun r => lsGet r.1 "k") =
      .ok (some (serialize (.obj [("value", .str (serialize (.num 5))), ("expiry", .null)]))) ∧
    serialize (.obj [("value", .str (serialize (.num 5))), ("expiry", .null)]) ≠
      serialize (.num 5) := by
  refine ⟨rfl, ?_⟩
  intro h
  injection h with h2
  exact JValue.noConfusion h2

/-- C8 amended: `setItemWithSync(key, value)` performs a full pipeline
write via `setItem` with no options — persisting the
`{value: serialize(value), expiry: null}` envelope under the key and
firing the `set` event — and then broadcasts `{key, value}` on the
`storage-sync` channel. -/
theorem C8_amended_sync_pipeline_write_then_broadcast :
    ∀ (key : String) (v : JValue) (now : Int) (st : LStorage),
      setItemWithSync key v now st =
        .ok (lsSet st key (serialize (.obj [("value", .str (serialize v)), ("expiry", .null)])),
             [⟨"set", .obj [("key", .str (.raw key)), ("value", v)]⟩],
             ⟨key, v⟩) := by
  intro key v now st
  rfl

/-- C6 counterexample: the claim says a decoding failure during `getItem`
surfaces as `null`, indistinguishable from an absent key; in fact
`deserialize` is a bare `JSON.parse` with no `try`/`catch`, so reading a
key whose stored text is raw ciphertext (here written by
`setItemEncrypted`, which persists the ciphertext without the envelope)
throws `SyntaxError` instead of returning `null`. -/
theorem C6_counterexample_decode_failure_throws :
    getItem "k" {} 0 (setItemEncrypted "k" (.num 5) "s" []).1 = .error .syntaxError := rfl

/-- C6 amended: absence and decoding failure are distinguished at the
public API.  An absent key makes `getItem` return `null`; stored text
that is not valid JSON (a raw ciphertext written by a non-envelope path)
makes the first `deserialize` throw `SyntaxError`; and reading an
envelope holding an encrypted payload with a wrong secret makes the
final `deserialize` throw `SyntaxError` on the unintelligible decrypted
text.  `getItem` never converts a decode failure into `null`. -/
theorem C6_amended_decode_failure_vs_absent :
    (∀ (key : String) (now : Int) (st : LStorage), lsGet st key = none →
        getItem key {} now st = .ok ⟨.null, st, []⟩)
    ∧ (∀ (key : String) (v : JValue) (secret : String) (now : Int) (st : LStorage),
        getItem key {} now (setItemEncrypted key v secret st).1 = .error .syntaxError)
    ∧ (getItem "k" { encrypt := true, secret := some "wrong" } 0
        [("k", serialize (.obj [("value", .str (.cipher (serialize (.num 5)) "right")),
                                ("expiry", .null)]))] = .error .syntaxError) := by
  refine ⟨?_, ?_, rfl⟩
  · intro key now st h
    simp [getItem, lsGetJS, h, deserialize, jsvTruthy, jsTruthy]
  · intro key v secret now st
    simp [getItem, lsGetJS, setItemEncrypted, lsGet_lsSet_self, encrypt, serialize,
      deserialize, jsvTruthy, jsTruthy, JStr.falsy, jsonParse, parseStr]

/-- C6 witness: an absent key yields `null` while the other conjuncts'
paths throw. -/
theorem C6_amended_decode_failure_vs_absent_witness :
    getItem "absent" {} 0 [] = .ok ⟨.null, [], []⟩ ∧
    getItem "k" {} 0 (setItemEncrypted "k" (.num 5) "wrongpath" []).1 = .error .syntaxError :=
  ⟨C6_amended_decode_failure_vs_absent.1 "absent" 0 [] rfl,
   C6_amended_decode_failure_vs_absent.2.1 "k" (.num 5) "wrongpath" 0 []⟩

/-- C10: when `getItem` removes a key through the lazy-expiry path it
fires no event at all — only `logAction` runs, `triggerEvent` is never
called, so no `remove` subscriber is invoked — whereas an explicit
`removeItem` fires exactly the `remove` event. -/
theorem C10_lazy_expiry_fires_no_remove_event :
    (∀ (key : String) (now e : Int) (v : JStr) (st : LStorage),
        lsGet st key = some (serialize (.obj [("value", .str v), ("expiry", .num e)])) →
        e ≠ 0 → now > e →
        getItem key {} now st = .ok ⟨.null, lsRemove st key, []⟩)
    ∧ (∀ (key : String) (st : LStorage),
        (removeItem key st).2 = [⟨"remove", .obj [("key", .str (.raw key))]⟩]) := by
  refine ⟨?_, fun key st => rfl⟩
  intro key now e v st h he hgt
  simp [getItem, lsGetJS, h, deserialize, jsvTruthy, jsTruthy, JStr.falsy, serialize,
    jsonParse, parseStr, getField, List.lookup, jsGtNum, he, hgt]

/-- C10 witness: a concrete expired envelope is removed with an empty
event trace, and a concrete `removeItem` fires `remove`. -/
theorem C10_lazy_expiry_fires_no_remove_event_witness :
    getItem "k" {} 11001
        [("k", serialize (.obj [("value", .str (serialize (.num 1))), ("expiry", .num 11000)]))] =
      .ok ⟨.null, [], []⟩ ∧
    (removeItem "w" []).2 = [⟨"remove", .obj [("key", .str (.raw "w"))]⟩] :=
  ⟨C10_lazy_expiry_fires_no_remove_event.1 "k" 11001 11000 (serialize (.num 1))
      [("k", serialize (.obj [("value", .str (serialize (.num 1))), ("expiry", .num 11000)]))]
      rfl (by decide) (by decide),
   C10_lazy_expiry_fires_no_remove_event.2 "w" []⟩

/-- C2 counterexample: the claim says writing with `expiry = 0` then
reading immediately returns `null`; in fact `expiry ? now + expiry :
null` treats `0` as falsy, so the envelope is stored with no deadline and
the immediate read returns the value `42`, which is not `null`. -/
theorem C2_counterexample_expiry_zero_never_expires :
    ((setItem "k" (.num 42) { expiry := some 0 } 1000 []).map
        (fun r => (getItem "k" {} 1000 r.1).map GetResult.value) = .ok (.ok (.num 42))) ∧
    JValue.num 42 ≠ JValue.null := by
  refine ⟨rfl, ?_⟩
  intro h
  cases h

/-- C2 amended: `expiry = 0` is treated as absent (JS falsiness), so the
envelope carries no deadline and an immediate read returns the value;
with `expiry = 10000` a read at `now + 9999` returns the value, and a
read at `now + 10001` returns `null` and removes the underlying key.
(`0 ≤ now` rules out the degenerate clock where `now + 10000 = 0`, which
the falsy expiry check would also treat as absent.) -/
theorem C2_amended_expiry_boundary :
    ∀ (key : String) (v : JValue) (now : Int) (st : LStorage), 0 ≤ now →
      ((setItem key v { expiry := some 0 } now st).map
          (fun r => (getItem key {} now r.1).map GetResult.value) = .ok (.ok v))
      ∧ ((setItem key v { expiry := some 10000 } now st).map
          (fun r => (getItem key {} (now + 9999) r.1).map GetResult.value) = .ok (.ok v))
      ∧ ((setItem key v { expiry := some 10000 } now st).map
          (fun r => (getItem key {} (now + 10001) r.1).map
            (fun g => (g.value, lsGet g.store key))) = .ok (.ok (.null, none))) := by
  intro key v now st hnow
  refine ⟨?_, ?_, ?_⟩
  · simp [setItem, getItem, Except.map, lsGetJS, lsGet_lsSet_self, deserialize, jsvTruthy,
      jsTruthy, JStr.falsy, jsonParse, parseStr, getField, List.lookup, jsGtNum, serialize,
      secretTruthy, decompressData]
  · have h1 : (now + 10000 : Int) ≠ 0 := by omega
    have h2 : ¬ (now + 10000 < now + 9999) := by omega
    simp [setItem, getItem, Except.map, lsGetJS, lsGet_lsSet_self, deserialize, jsvTruthy,
      jsTruthy, JStr.falsy, jsonParse, parseStr, getField, List.lookup, jsGtNum, serialize,
      secretTruthy, decompressData, h1, h2]
  · have h1 : (now + 10000 : Int) ≠ 0 := by omega
    have h2 : (now + 10000 : Int) < now + 10001 := by omega
    simp [setItem, getItem, Except.map, lsGetJS, lsGet_lsSet_self, lsGet_lsRemove_self,
      deserialize, jsvTruthy, jsTruthy, JStr.falsy, jsonParse, parseStr, getField,
      List.lookup, jsGtNum, serialize, secretTruthy, h1, h2]

/-- C2 witness: the amended boundary behaviour at `now = 1000` on the
empty store with value `42`. -/
theorem C2_amended_expiry_boundary_witness :
    ((setItem "k" (.num 42) { expiry := some 0 } 1000 []).map
        (fun r => (getItem "k" {} 1000 r.1).map GetResult.value) = .ok (.ok (.num 42)))
    ∧ ((setItem "k" (.num 42) { expiry := some 10000 } 1000 []).map
        (fun r => (getItem "k" {} (1000 + 9999) r.1).map GetResult.value) = .ok (.ok (.num 42)))
    ∧ ((setItem "k" (.num 42) { expiry := some 10000 } 1000 []).map
        (fun r => (getItem "k" {} (1000 + 10001) r.1).map
          (fun g => (g.value, lsGet g.store "k"))) = .ok (.ok (.null, none))) :=
  C2_amended_expiry_boundary "k" (.num 42) 1000 [] (by decide)

/-- C3 counterexample: the claim says the persisted result of
`setItemWithLimit` never exceeds length `limit`; in fact the code evicts
exactly one element per call, so a pre-existing stored array of length 3
at `limit = 2` is persisted back with length 3 (`[2, 3, 9]`), exceeding
the bound.  (Likewise a stored truthy non-array is not treated as empty —
`.push` on it throws — but the length bound alone already falsifies the
claim.) -/
theorem C3_counterexample_bound_exceeded :
    (setItemWithLimit "k" (.num 9) 2 [("k", serialize (.arr [.num 1, .num 2, .num 3]))]).map
        (fun s => lsGet s "k") =
      .ok (some (serialize (.arr [.num 2, .num 3, .num 9]))) ∧
    ¬ (([JValue.num 2, .num 3, .num 9].length : Int) ≤ 2) := ⟨rfl, by decide⟩

/-- C3 amended: `setItemWithLimit` reads the stored JSON array (a missing
key — `JSON.parse(null)` — yields the empty sequence; a stored truthy
non-array throws `TypeError` instead of being treated as empty), evicts
exactly the oldest element when the length has reached `limit`, and
appends the value; the persisted length stays within `limit` provided the
pre-existing length was within `limit` and `limit ≥ 1`.  In particular
three sequential writes at `limit = 2` from an empty store leave exactly
`[v2, v3]`. -/
theorem C3_amended_fifo_eviction :
    (∀ (key : String) (v : JValue) (limit : Int) (st : LStorage),
        lsGet st key = none →
        setItemWithLimit key v limit st = .ok (lsSet st key (serialize (.arr [v]))))
    ∧ (∀ (key : String) (v : JValue) (limit : Int) (st : LStorage) (xs : List JValue),
        lsGet st key = some (serialize (.arr xs)) →
        (xs.length : Int) ≤ limit → 1 ≤ limit →
        setItemWithLimit key v limit st =
          .ok (lsSet st key (serialize (.arr
            ((if (xs.length : Int) ≥ limit then xs.drop 1 else xs) ++ [v])))) ∧
        ((((if (xs.length : Int) ≥ limit then xs.drop 1 else xs) ++ [v]).length : Int) ≤ limit))
    ∧ (∀ v1 v2 v3 : JValue,
        ((setItemWithLimit "k" v1 2 []).bind fun s1 =>
          (setItemWithLimit "k" v2 2 s1).bind fun s2 =>
            (setItemWithLimit "k" v3 2 s2).map fun s3 => lsGet s3 "k") =
          .ok (some (serialize (.arr [v2, v3])))) := by
  refine ⟨?_, ?_, fun v1 v2 v3 => rfl⟩
  · intro key v limit st h
    simp [setItemWithLimit, lsGetJS, h, jsonParse, jsTruthy]
  · intro key v limit st xs h hlen hlim
    constructor
    · simp [setItemWithLimit, lsGetJS, h, jsonParse, parseStr, serialize, jsTruthy]
    · by_cases hge : (xs.length : Int) ≥ limit
      · have hx : 1 ≤ xs.length := by omega
        simp only [hge, if_true, List.length_append, List.length_drop,
          List.length_singleton]
        push_cast
        omega
      · simp only [hge, if_false, List.length_append, List.length_singleton]
        push_cast
        omega

/-- C3 witness: the FIFO step on a concrete full array within the bound
(`[10, 20]` at `limit = 2` becomes `[20, 30]`). -/
theorem C3_amended_fifo_eviction_witness :
    setItemWithLimit "k" (.num 30) 2 [("k", serialize (.arr [.num 10, .num 20]))] =
      .ok (lsSet [("k", serialize (.arr [.num 10, .num 20]))] "k"
        (serialize (.arr
          ((if (([JValue.num 10, .num 20].length : Int)) ≥ 2
            then [JValue.num 10, .num 20].drop 1 else [JValue.num 10, .num 20]) ++ [.num 30])))) ∧
    (((if (([JValue.num 10, .num 20].length : Int)) ≥ 2
        then [JValue.num 10, .num 20].drop 1 else [JValue.num 10, .num 20]) ++
        [JValue.num 30]).length : Int) ≤ 2 :=
  C3_amended_fifo_eviction.2.1 "k" (.num 30) 2 [("k", serialize (.arr [.num 10, .num 20]))]
    [.num 10, .num 20] rfl (by decide) (by decide)

/-- Helper for C4: `forEach` over throw-free callbacks invokes all of
them in registration order and no exception escapes. -/
theorem runCallbacks_all_ok (cbs : List Callback) (h : ∀ c ∈ cbs, ∃ i, c = .ok i) :
    runCallbacks cbs = (cbs.map Callback.id, false) := by
  induction cbs with
  | nil => rfl
  | cons c t ih =>
    obtain ⟨i, rfl⟩ := h c (List.mem_cons_self c t)
    simp [runCallbacks, Callback.id, ih (fun c hc => h c (List.mem_cons_of_mem _ hc))]

/-- Helper for C4: the first throwing callback aborts `forEach`, so the
callbacks after it never run and the exception escapes. -/
theorem runCallbacks_stops_at_throw (pre : List Callback) (i : Nat) (post : List Callback)
    (h : ∀ c ∈ pre, ∃ j, c = .ok j) :
    runCallbacks (pre ++ .throws i :: post) = (pre.map Callback.id ++ [i], true) := by
  induction pre with
  | nil => rfl
  | cons c t ih =>
    obtain ⟨j, rfl⟩ := h c (List.mem_cons_self c t)
    simp [runCallbacks, Callback.id, ih (fun c hc => h c (List.mem_cons_of_mem _ hc))]

/-- C4 counterexample: the claim says an exception in one callback does
not prevent the remaining callbacks from running; in fact `forEach` has
no per-subscriber isolation, so with `set` subscribers
`[throws 0, ok 1]` only the first callback runs (`[0]`, not `[0, 1]`)
and the exception escapes `emit`. -/
theorem C4_counterexample_throw_stops_fanout :
    triggerEvent "set" { set := [.throws 0, .ok 1] } = ([0], true) ∧
    ([0] : List Nat) ≠ [0, 1] := ⟨rfl, by decide⟩

/-- C4 amended: callbacks registered for an event are invoked
synchronously and in registration order, but only up to and including the
first one that throws: with no throwing subscriber all run and no
exception escapes; with a throwing subscriber at any position, exactly
the callbacks before it and itself run, the rest are skipped, and the
exception propagates out of `triggerEvent`. -/
theorem C4_amended_fanout_until_first_throw :
    (∀ (ls : Listeners) (ev : String) (cbs : List Callback),
        lookupListeners ls ev = some cbs → (∀ c ∈ cbs, ∃ i, c = .ok i) →
        triggerEvent ev ls = (cbs.map Callback.id, false))
    ∧ (∀ (ls : Listeners) (ev : String) (pre : List Callback) (i : Nat)
          (post : List Callback),
        lookupListeners ls ev = some (pre ++ .throws i :: post) →
        (∀ c ∈ pre, ∃ j, c = .ok j) →
        triggerEvent ev ls = (pre.map Callback.id ++ [i], true)) := by
  constructor
  · intro ls ev cbs h hok
    simp [triggerEvent, h, runCallbacks_all_ok cbs hok]
  · intro ls ev pre i post h hok
    simp [triggerEvent, h, runCallbacks_stops_at_throw pre i post hok]

/-- C4 witness: two well-behaved `set` subscribers both receive the
event, in registration order, with no escaping exception. -/
theorem C4_amended_fanout_until_first_throw_witness :
    triggerEvent "set" { set := [.ok 3, .ok 4] } = ([3, 4], false) :=
  C4_amended_fanout_until_first_throw.1 { set := [.ok 3, .ok 4] } "set" [.ok 3, .ok 4] rfl
    (by
      intro c hc
      simp only [List.mem_cons, List.mem_singleton, List.not_mem_nil, or_false] at hc
      rcases hc with rfl | rfl
      · exact ⟨3, rfl⟩
      · exact ⟨4, rfl⟩)

/-- C7 counterexample: the claim quantifies over every value `v1`, but a
falsy cached value (here `false`) is not returned by `getItemWithCache`
after a direct `removeItem`: `memoryCache[key] || getItem(key)` skips the
falsy cache entry, the fallback read finds the key removed, and the call
returns `null`, not `v1 = false`. -/
theorem C7_counterexample_falsy_cached_value_lost :
    ((getItemWithCache "k" (setItemWithCache "k" (.bool false) [] []).1 0
        (removeItem "k" (setItemWithCache "k" (.bool false) [] []).2.1).1).map
        GetResult.value = .ok JValue.null) ∧
    JValue.null ≠ JValue.bool false := by
  refine ⟨rfl, ?_⟩
  intro h
  cases h

/-- C7 amended: for every truthy value `v1`, after `setItemWithCache(k,
v1)` followed by a direct `removeItem(k)` the call `getItemWithCache(k)`
still returns `v1` from the in-memory cache, whose entry for `k` is left
untouched by `removeItem` — the documented staleness hazard. -/
theorem C7_amended_truthy_cache_survives_remove :
    ∀ (key : String) (v1 : JValue) (cache : MemCache) (st : LStorage) (now : Int),
      jsTruthy v1 = true →
      (let r := setItemWithCache key v1 cache st
       let st2 := (removeItem key r.2.1).1
       getItemWithCache key r.1 now st2 = .ok ⟨v1, st2, []⟩ ∧
       r.1.lookup key = some v1) := by
  intro key v1 cache st now h
  refine ⟨?_, ?_⟩
  · simp [getItemWithCache, setItemWithCache, List.lookup, h]
  · simp [setItemWithCache, List.lookup]

/-- C7 witness: the amended staleness hazard at the truthy value `7`. -/
theorem C7_amended_truthy_cache_survives_remove_witness :
    (let r := setItemWithCache "k" (.num 7) [] []
     let st2 := (removeItem "k" r.2.1).1
     getItemWithCache "k" r.1 0 st2 = .ok ⟨.num 7, st2, []⟩ ∧
     r.1.lookup "k" = some (.num 7)) :=
  C7_amended_truthy_cache_survives_remove "k" (.num 7) [] [] 0 rfl

/-- C9: a falsy cached value (`false`, `0`, `""`, `null`) is skipped by
`memoryCache[key] || getItem(key)`, so `getItemWithCache` returns the
result of a plain persistent `getItem` read instead; in particular after
`setItemWithCache(k, false)` the read returns what decoding the persisted
form yields — `null`, because the deserialized `false` fails the `!item`
guard — and not the cache entry. -/
theorem C9_falsy_cache_ignored :
    (∀ (key : String) (cache : MemCache) (st : LStorage) (now : Int) (v : JValue),
        cache.lookup key = some v → jsTruthy v = false →
        getItemWithCache key cache now st = getItem key {} now st)
    ∧ (∀ (key : String) (cache : MemCache) (st : LStorage),
        (let r := setItemWithCache key (.bool false) cache st
         getItemWithCache key r.1 0 r.2.1) =
          .ok ⟨.null, lsSet st key (serialize (.bool false)), []⟩) := by
  constructor
  · intro key cache st now v h hf
    simp [getItemWithCache, h, hf]
  · intro key cache st
    simp [getItemWithCache, setItemWithCache, List.lookup, jsTruthy, getItem, Except.map,
      lsGetJS, lsGet_lsSet_self, deserialize, jsvTruthy, JStr.falsy, jsonParse, parseStr,
      serialize]

/-- C9 witness: a concrete falsy cache entry defers to the persistent
read, and caching `false` yields `null` on read-back. -/
theorem C9_falsy_cache_ignored_witness :
    (getItemWithCache "k" [("k", .bool false)] 5 [] = getItem "k" {} 5 []) ∧
    ((let r := setItemWithCache "w" (.bool false) [] []
      getItemWithCache "w" r.1 0 r.2.1) =
        .ok ⟨.null, lsSet [] "w" (serialize (.bool false)), []⟩) :=
  ⟨C9_falsy_cache_ignored.1 "k" [("k", .bool false)] [] 5 (.bool false) rfl rfl,
   C9_falsy_cache_ignored.2 "w" [] []⟩
